import Mathlib

/-!
Shallow embedding of the decision core of the mteor trading engine
(src/mteor/bet.py, src/mteor/signal.py, src/mteor/trader.py).

Monetary quantities, prices, volumes and ratios are embedded as exact
rationals (the Python source computes with binary floats; the claims under
study are about control flow and exact arithmetic identities, so `ℚ` is the
faithful idealisation).  Missing numeric values (`NaN` produced by pandas
`diff`, statistics of an empty window, or a log/division domain error) are
embedded as `Option ℚ`, written `RQ` below, with `none` standing for a
missing value; comparisons against `none` are `false`, as NaN comparisons
are in Python.
-/

namespace Mteor

/-! ## Python semantics helpers -/

/-- Python `a or b` for two floats: `a` when truthy (nonzero), else `b`. -/
def pyOr (a b : ℚ) : ℚ := if a = 0 then b else a

/-- Python `a or b` where `a` is an optional float (`None` and `0.0` are
falsy). -/
def pyOrOpt (a : Option ℚ) (b : ℚ) : ℚ :=
  match a with
  | none => b
  | some v => if v = 0 then b else v

/-- Truthiness of an optional float (`None` and `0.0` are falsy). -/
def pyTruthy (a : Option ℚ) : Bool :=
  match a with
  | none => false
  | some v => v != 0

/-- Python `abs`. -/
def pyAbs (q : ℚ) : ℚ := if q < 0 then -q else q

/-- Python `int(x)` on a float: truncation toward zero. -/
def pyInt (q : ℚ) : ℤ := if 0 ≤ q then ⌊q⌋ else -⌊-q⌋

/-- Round to the nearest integer, ties to even (Python `round`). -/
def roundHalfEven (q : ℚ) : ℤ :=
  let f : ℤ := ⌊q⌋
  let r : ℚ := q - f
  if r < 1 / 2 then f
  else if r > 1 / 2 then f + 1
  else if f % 2 = 0 then f else f + 1

/-- Python `round(x, digits)`. -/
def pyRound (digits : ℕ) (q : ℚ) : ℚ :=
  (roundHalfEven (q * 10 ^ digits) : ℚ) / 10 ^ digits

/-! ## bet.py — BettingSystem -/

/-- The six betting strategies accepted by `BettingSystem.__init__`. -/
inductive Strategy
  | martingale
  | paroli
  | dalembert
  | pyramid
  | oscarsGrind
  | constant
deriving DecidableEq

/-- MT5 deal types relevant to `calculate_volume_by_pl`: `DEAL_TYPE_BUY`,
`DEAL_TYPE_SELL`, or anything else. -/
inductive DealType
  | buy
  | sell
  | other
deriving DecidableEq

/-- A history deal.  `entry` is the truthiness of the MT5 `entry` field as
tested by `if d.entry`. -/
structure Deal where
  entry : Bool
  dtype : DealType
  volume : ℚ
  profit : ℚ
deriving DecidableEq

/-- `[d for d in history_deals if d.entry and d.type in {BUY, SELL}]`. -/
def entryDealsOf (deals : List Deal) : List Deal :=
  deals.filter fun d => d.entry && (d.dtype == DealType.buy || d.dtype == DealType.sell)

/-- `entry_deals[-1].volume if entry_deals else 0`. -/
def lastEntryVolume (deals : List Deal) : ℚ :=
  match (entryDealsOf deals).getLast? with
  | some d => d.volume
  | none => 0

/-- `pd.Series.cumsum` on a profit series. -/
def cumsumFrom (acc : ℚ) : List ℚ → List ℚ
  | [] => []
  | v :: rest => (acc + v) :: cumsumFrom (acc + v) rest

def cumsum (l : List ℚ) : List ℚ := cumsumFrom 0 l

/-- Index of the first occurrence of the maximum (`pd.Series.idxmax` on a
default range index).  `bi`/`bv` are the best index and value so far, `i`
the index of the head of the remaining list. -/
def idxmaxFrom (bi : ℕ) (bv : ℚ) (i : ℕ) : List ℚ → ℕ
  | [] => bi
  | v :: rest => if bv < v then idxmaxFrom i v (i + 1) rest else idxmaxFrom bi bv (i + 1) rest

def idxmax : List ℚ → ℕ
  | [] => 0
  | v :: rest => idxmaxFrom 0 v 1 rest

/-- `pl.cumsum().idxmax() == pl.index[-1]` — the running maximum of the
cumulative profit is first attained at the last index (`False` for an empty
series, as in the `pl.size == 0` branch of the source). -/
def allTimeHighOf (pl : List ℚ) : Bool :=
  match pl with
  | [] => false
  | _ => idxmax (cumsum pl) == pl.length - 1

/-- The strict backward scan of `calculate_volume_by_pl`: walk the profits
before the last deal from newest to oldest, accumulating `latest_loss` from
non-positive profits, extending `latest_profit` while no loss has been seen,
and stopping at the first positive profit after a loss.  The state is
`(latest_profit, latest_loss)`. -/
def strictScan : List ℚ → ℚ × ℚ → ℚ × ℚ
  | [], s => s
  | v :: rest, (p, l) =>
    if v ≤ 0 then strictScan rest (p, l + pyAbs v)
    else if l = 0 then strictScan rest (p + v, l)
    else (p, l)

/-- The tri-state win/loss determination of `calculate_volume_by_pl`
(`some true` = won, `some false` = lost, `none` = undetermined), on the
entry-deal profit series (oldest first). -/
def wonLastOf (strict : Bool) (pl : List ℚ) : Option Bool :=
  match pl.getLast? with
  | none => none
  | some lastPl =>
    if lastPl < 0 then some false
    else if 0 < lastPl then
      if strict then
        let s := strictScan pl.dropLast.reverse (lastPl, 0)
        if s.2 < s.1 then some true else none
      else some true
    else none

/-- `BettingSystem._calculate_volume`. -/
def calculateVolume (strategy : Strategy) (unitVolume : ℚ) (initVolume : Option ℚ)
    (lastVolume : ℚ) (wonLast : Option Bool) (allTimeHigh : Bool) : ℚ :=
  match wonLast with
  | none => pyOr lastVolume (pyOrOpt initVolume unitVolume)
  | some won =>
    match strategy with
    | .martingale => if won then unitVolume else lastVolume * 2
    | .paroli => if won then lastVolume * 2 else unitVolume
    | .dalembert => if won then unitVolume else lastVolume + unitVolume
    | .pyramid =>
      if !won then lastVolume + unitVolume
      else if lastVolume < unitVolume then lastVolume
      else lastVolume - unitVolume
    | .oscarsGrind =>
      if allTimeHigh then pyOrOpt initVolume unitVolume
      else if won then lastVolume + unitVolume
      else lastVolume
    | .constant => unitVolume

/-- `BettingSystem.calculate_volume_by_pl`.  The source's unreachable
`pl.size == 0` inner branch (entry deals are non-empty there, so `pl` is
non-empty) is carried by the empty cases of `wonLastOf`/`allTimeHighOf`,
which yield the same `won_last = None` / `all_time_high = False`. -/
def calculateVolumeByPl (strategy : Strategy) (strict : Bool) (unitVolume : ℚ)
    (deals : List Deal) (initVolume : Option ℚ) : ℚ :=
  let entryDeals := entryDealsOf deals
  let lastVolume := lastEntryVolume deals
  if entryDeals.isEmpty then pyOr lastVolume (pyOrOpt initVolume unitVolume)
  else
    let pl := entryDeals.map (·.profit)
    calculateVolume strategy unitVolume initVolume lastVolume
      (wonLastOf strict pl) (allTimeHighOf pl)

/-- A trading action string: `'long'`, `'short'` or `'closing'`
(`None` is `Option.none` at use sites). -/
inductive Act
  | long
  | short
  | closing
deriving DecidableEq

/-! ## signal.py — MacdSignalDetector

pandas/numpy series are embedded as lists of `RQ := Option ℚ`, with `none`
for a missing value (NaN): the leading element of a `diff`, a log of a
non-positive price, or a division by zero (an infinity in numpy; it is
never compared by any theorem below and is modelled as missing).  EWM
statistics use the exact `adjust=False` recursions; a missing input carries
the previous state forward (pandas shows the last statistic at a NaN row
and leaves leading NaNs in place — the only missing values arising here
are leading ones, for which this is exact). -/

/-- A possibly missing rational (NaN-aware value). -/
abbrev RQ := Option ℚ

def rqBin (f : ℚ → ℚ → ℚ) : RQ → RQ → RQ
  | some a, some b => some (f a b)
  | _, _ => none

def rqAdd : RQ → RQ → RQ := rqBin (· + ·)

def rqSub : RQ → RQ → RQ := rqBin (· - ·)

def rqMul : RQ → RQ → RQ := rqBin (· * ·)

/-- Division; a zero divisor yields a missing value. -/
def rqDiv : RQ → RQ → RQ
  | some a, some b => if b = 0 then none else some (a / b)
  | _, _ => none

/-- `<` with NaN semantics: any comparison against a missing value is
false. -/
def rqLt : RQ → RQ → Bool
  | some a, some b => a < b
  | _, _ => false

def rqLe : RQ → RQ → Bool
  | some a, some b => a ≤ b
  | _, _ => false

/-- `pd.Series.mean` (missing values skipped; empty → NaN). -/
def rqMean (l : List RQ) : RQ :=
  let xs := l.filterMap id
  if xs.isEmpty then none else some (xs.sum / xs.length)

/-- `pd.Series.diff`: a leading missing value, then successive
differences. -/
def rqDiff (l : List RQ) : List RQ :=
  match l with
  | [] => []
  | _ => none :: List.zipWith rqSub l.tail l

/-- The smoothing factor of `ewm(span=s, adjust=False)`. -/
def ewmAlpha (span : ℕ) : ℚ := 2 / ((span : ℚ) + 1)

def ewmMeanQGo (α : ℚ) (m : ℚ) : List ℚ → List ℚ
  | [] => []
  | x :: rest =>
    let m' := (1 - α) * m + α * x
    m' :: ewmMeanQGo α m' rest

/-- `ewm(span, adjust=False).mean()` on a series with no missing values. -/
def ewmMeanQ (span : ℕ) : List ℚ → List ℚ
  | [] => []
  | x :: rest => x :: ewmMeanQGo (ewmAlpha span) x rest

def ewmMeanGo (α : ℚ) : Option ℚ → List RQ → List RQ
  | _, [] => []
  | st, none :: rest => st :: ewmMeanGo α st rest
  | st, some x :: rest =>
    let m :=
      match st with
      | none => x
      | some m0 => (1 - α) * m0 + α * x
    some m :: ewmMeanGo α (some m) rest

/-- `ewm(span, adjust=False).mean()` on a NaN-aware series. -/
def ewmMean (span : ℕ) (l : List RQ) : List RQ := ewmMeanGo (ewmAlpha span) none l

/-- Running weighted sums for the `adjust=False` EWM variance:
`sw = Σwᵢ`, `sw2 = Σwᵢ²`, `swx = Σwᵢxᵢ`, `swxx = Σwᵢxᵢ²`. -/
structure EwmVarState where
  sw : ℚ
  sw2 : ℚ
  swx : ℚ
  swxx : ℚ

/-- The bias-corrected (ddof = 1) EWM variance from the running sums;
missing while the correction denominator is zero (fewer than two
observations), as pandas reports NaN there. -/
def ewmVarOut (s : EwmVarState) : RQ :=
  let m := s.swx / s.sw
  let varb := s.swxx / s.sw - m * m
  let denom := s.sw * s.sw - s.sw2
  if denom = 0 then none else some (varb * (s.sw * s.sw) / denom)

def ewmVarGo (α : ℚ) : Option EwmVarState → List RQ → List RQ
  | _, [] => []
  | st, none :: rest =>
    (match st with
     | none => none
     | some s => ewmVarOut s) :: ewmVarGo α st rest
  | st, some x :: rest =>
    let s' : EwmVarState :=
      match st with
      | none => ⟨1, 1, x, x * x⟩
      | some s =>
        ⟨(1 - α) * s.sw + α, (1 - α) ^ 2 * s.sw2 + α ^ 2,
         (1 - α) * s.swx + α * x, (1 - α) * s.swxx + α * x * x⟩
    ewmVarOut s' :: ewmVarGo α (some s') rest

/-- `ewm(span, adjust=False).var(ddof=1)` on a NaN-aware series. -/
def ewmVar (span : ℕ) (l : List RQ) : List RQ := ewmVarGo (ewmAlpha span) none l

/-- A raw tick row (`time_msc` in seconds; bid/ask possibly missing, to be
dropped by `dropna`). -/
structure Tick where
  timeMsc : ℚ
  bid : RQ
  ask : RQ
deriving DecidableEq

/-- A tick row surviving `dropna(subset=['ask', 'bid'])`. -/
structure CleanTick where
  timeMsc : ℚ
  bid : ℚ
  ask : ℚ
deriving DecidableEq

/-- `d[['ask', 'bid']].mean(axis=1)`. -/
def CleanTick.mid (t : CleanTick) : ℚ := (t.ask + t.bid) / 2

/-- Construction parameters of `MacdSignalDetector`.  The significance
level enters only through the Student-t quantiles, which are supplied to
`detect` as abstract parameters (they are transcendental). -/
structure DetectorCfg where
  fastEmaSpan : ℕ
  slowEmaSpan : ℕ
  macdEmaSpan : ℕ
  genericEmaSpan : ℕ
  triggerSharpeRatio : ℚ
  signalCount : ℕ

/-- The columns of the frame produced by
`MacdSignalDetector._calculate_adjusted_macd` (all lists are row-aligned
with `rows`). -/
structure MacdFrame where
  rows : List CleanTick
  mids : List ℚ
  deltaSec : List RQ
  macd : List RQ
  macdEma : List RQ

/-- `MacdSignalDetector._calculate_adjusted_macd`. -/
def calculateAdjustedMacd (cfg : DetectorCfg) (ticks : List Tick) : MacdFrame :=
  let rows : List CleanTick := ticks.filterMap fun t =>
    match t.bid, t.ask with
    | some b, some a => some ⟨t.timeMsc, b, a⟩
    | _, _ => none
  let mids := rows.map CleanTick.mid
  let deltaSec := rqDiff (rows.map fun t => some t.timeMsc)
  let fastSlow := List.zipWith (· - ·) (ewmMeanQ cfg.fastEmaSpan mids) (ewmMeanQ cfg.slowEmaSpan mids)
  let meanDs := rqMean deltaSec
  let macd := List.zipWith (fun fs ds => rqMul (rqDiv (some fs) ds) meanDs) fastSlow deltaSec
  let macdEma := ewmMean cfg.macdEmaSpan macd
  ⟨rows, mids, deltaSec, macd, macdEma⟩

/-- `MacdSignalDetector._calculate_ewm_sharpe_ratio`: the `emsr` column
(the only one consumed downstream).  `exp(log(mid).diff()) - 1` is the
exact price ratio minus one; a non-positive price is a log-domain error
(missing).  `sqrtQ` abstracts the square root inside the EWM standard
deviation. -/
def calculateEwmSharpeRatio (sqrtQ : ℚ → ℚ) (span : ℕ) (isShort : Bool)
    (fr : MacdFrame) : List RQ :=
  let sgn : ℚ := if isShort then -1 else 1
  let spreads := fr.rows.map fun t => t.ask - t.bid
  let ratios : List RQ :=
    match fr.mids with
    | [] => []
    | _ =>
      none :: List.zipWith
        (fun cur prev => if prev ≤ 0 ∨ cur ≤ 0 then none else some (cur / prev))
        fr.mids.tail fr.mids
  let meanDs := rqMean fr.deltaSec
  let meanSp := rqMean (spreads.map some)
  let rr1 := List.zipWith
    (fun x ds => rqMul (rqDiv (rqMul (rqSub x (some 1)) (some sgn)) ds) meanDs)
    ratios fr.deltaSec
  let rr := List.zipWith (fun x sp => rqMul (rqDiv x (some sp)) meanSp) rr1 spreads
  List.zipWith rqDiv (ewmMean span rr) ((ewmVar span rr).map (Option.map sqrtQ))

/-- One row of the signal frame `df_sig`. -/
structure SigRow where
  macd : RQ
  macdEma : RQ
  emsr : RQ
  dMacdDiffEma : RQ
  dMacdDiffEmvar : RQ
  dEmsrEma : RQ
  dEmsrEmvar : RQ
deriving DecidableEq

/-- The all-NaN statistics row used when the tick window is empty. -/
def nanRow : SigRow := ⟨none, none, none, none, none, none, none⟩

/-- `scipy.stats.t.interval(confidence, df, loc, scale)` for a supplied
t-quantile `t`: `(loc - t*scale, loc + t*scale)`; missing loc or scale
propagates. -/
def tInterval (t : ℚ) (loc scale : RQ) : RQ × RQ :=
  (rqSub loc (rqMul (some t) scale), rqAdd loc (rqMul (some t) scale))

/-- The verdict returned by `detect` (the formatted `log_str` is
presentational and elided). -/
structure SigVerdict where
  act : Option Act
  sig : SigRow
  dMacdDiffEmci : RQ × RQ
  dEmsrEmci : RQ × RQ
deriving DecidableEq

/-- `MacdSignalDetector.detect`.  `sqrtQ` abstracts the square root,
`tqMacd`/`tqGen` the Student-t quantiles for `macd_ema_span - 1` and
`generic_ema_span - 1` degrees of freedom.  A `.error` result is a raised
`IndexError`: `df_sig` is built through a `pipe` whose lambda evaluates
`d['macd'].iloc[-1]` — on an empty frame this raises before the
`df_tick.shape[0] > 0` guard is ever reached. -/
def detect (sqrtQ : ℚ → ℚ) (tqMacd tqGen : ℚ) (cfg : DetectorCfg)
    (ticks : List Tick) (positionSide : Option Act) : Except String SigVerdict :=
  let fr := calculateAdjustedMacd cfg ticks
  match (List.zip fr.macd fr.macdEma).getLast? with
  | none => Except.error "single positional indexer is out-of-bounds"
  | some (mLast, meLast) =>
    let isShort := rqLt mLast meLast
    let emsr := calculateEwmSharpeRatio sqrtQ cfg.genericEmaSpan isShort fr
    let dMacdDiff := rqDiff (List.zipWith rqSub fr.macd fr.macdEma)
    let dEmsr := rqDiff emsr
    let dMacdDiffEma := ewmMean cfg.genericEmaSpan dMacdDiff
    let dMacdDiffEmvar := ewmVar cfg.genericEmaSpan dMacdDiff
    let dEmsrEma := ewmMean cfg.genericEmaSpan dEmsr
    let dEmsrEmvar := ewmVar cfg.genericEmaSpan dEmsr
    let n := fr.macd.length
    let rows : List SigRow := (List.range n).map fun i =>
      ⟨fr.macd.getD i none, fr.macdEma.getD i none, emsr.getD i none,
       dMacdDiffEma.getD i none, dMacdDiffEmvar.getD i none,
       dEmsrEma.getD i none, dEmsrEmvar.getD i none⟩
    let dfSig := rows.drop (n - cfg.signalCount)
    let mkVerdict : SigRow → SigVerdict := fun sig =>
      let ci1 := tInterval tqMacd sig.dMacdDiffEma
        ((rqDiv sig.dMacdDiffEmvar (some (cfg.macdEmaSpan : ℚ))).map sqrtQ)
      let ci2 := tInterval tqGen sig.dEmsrEma
        ((rqDiv sig.dEmsrEmvar (some (cfg.genericEmaSpan : ℚ))).map sqrtQ)
      let act : Option Act :=
        if dfSig.all fun r => rqLt r.macdEma r.macd then
          if (dfSig.all fun r => rqLt (some 0) r.emsr)
              && rqLt (some 0) sig.dMacdDiffEma && rqLt (some 0) sig.dEmsrEma
              && (rqLt (some 0) ci1.1 || rqLt (some 0) ci2.1
                  || rqLe (some cfg.triggerSharpeRatio) sig.emsr) then
            some Act.long
          else if (positionSide == some Act.long
                    && (dfSig.all fun r => rqLt r.emsr (some 0))
                    && (rqLt ci1.2 (some 0) || rqLt ci2.2 (some 0)))
                  || positionSide == some Act.short then
            some Act.closing
          else none
        else if dfSig.all fun r => rqLt r.macd r.macdEma then
          if (dfSig.all fun r => rqLt (some 0) r.emsr)
              && rqLt sig.dMacdDiffEma (some 0) && rqLt (some 0) sig.dEmsrEma
              && (rqLt ci1.2 (some 0) || rqLt (some 0) ci2.1
                  || rqLe (some cfg.triggerSharpeRatio) sig.emsr) then
            some Act.short
          else if (positionSide == some Act.short
                    && (dfSig.all fun r => rqLt r.emsr (some 0))
                    && (rqLt (some 0) ci1.1 || rqLt ci2.2 (some 0)))
                  || positionSide == some Act.long then
            some Act.closing
          else none
        else none
      ⟨act, sig, ci1, ci2⟩
    if 0 < ticks.length then
      match dfSig.getLast? with
      | none => Except.error "single positional indexer is out-of-bounds"
      | some sigRow => Except.ok (mkVerdict sigRow)
    else Except.ok (mkVerdict nanRow)

/-! ## trader.py — Mt5TraderCore / AutoTrader

The MT5 terminal is an external collaborator: account, symbol, tick,
position and deal snapshots are inputs (the `_refresh_*_cache` methods
store exactly these snapshots), and order submission is embedded as the
list of requests the trader emits. -/

/-- Position type: `POSITION_TYPE_BUY` or `POSITION_TYPE_SELL`. -/
inductive PosType
  | buy
  | sell
deriving DecidableEq

structure AccountInfo where
  balance : ℚ
  equity : ℚ
  marginFree : ℚ
deriving DecidableEq

structure SymbolInfo where
  volumeMin : ℚ
  digits : ℕ
deriving DecidableEq

/-- A symbol tick snapshot (`symbol_info_tick`). -/
structure TickQuote where
  bid : ℚ
  ask : ℚ
deriving DecidableEq

structure Position where
  ptype : PosType
  volume : ℚ
  sl : ℚ
  tp : ℚ
  ticket : ℕ
deriving DecidableEq

/-- Construction-time configuration of `Mt5TraderCore` (the constructor
normalises a falsy `unit_margin_ratio` to `None`; here the raw optional
value is kept and tested with Python truthiness, which is equivalent). -/
structure TraderCfg where
  umr : Option ℚ
  cfgUnitVolume : ℚ
  preservedMarginRatio : ℚ
  takeProfitLimitRatio : ℚ
  stopLossLimitRatio : ℚ
  trailingStopLimitRatio : ℚ
  maxSpreadRatio : ℚ
  strategy : Strategy
deriving DecidableEq

/-- Sum of long-position volumes (`_refresh_position_cache`). -/
def longVolume (ps : List Position) : ℚ :=
  ((ps.filter fun p => p.ptype == PosType.buy).map (·.volume)).sum

def shortVolume (ps : List Position) : ℚ :=
  ((ps.filter fun p => p.ptype == PosType.sell).map (·.volume)).sum

/-- The dominant side from `_refresh_position_cache`: `None` for no
positions or a tie, else the side with the larger aggregate volume. -/
def positionSideOf (ps : List Position) : Option Act :=
  if ps.isEmpty then none
  else if shortVolume ps < longVolume ps then some Act.long
  else if longVolume ps < shortVolume ps then some Act.short
  else none

/-- The values computed by `_refresh_unit_margin_and_volume`. -/
structure MarginState where
  unitVolume : ℚ
  unitLot : ℤ
  unitMargin : ℚ
  availMargin : ℚ
  availVolume : ℚ
deriving DecidableEq

/-- `Mt5TraderCore._refresh_unit_margin_and_volume`, as a function of the
account snapshot, symbol snapshot and cached minimum ask margin. -/
def refreshUnitMarginAndVolume (cfg : TraderCfg) (acct : AccountInfo)
    (sym : SymbolInfo) (minAskMargin : ℚ) : MarginState :=
  let unitLot : ℤ :=
    if pyTruthy cfg.umr then ⌊acct.equity * cfg.umr.getD 0 / minAskMargin⌋
    else ⌊cfg.cfgUnitVolume / sym.volumeMin⌋
  let unitVolume : ℚ :=
    if pyTruthy cfg.umr then sym.volumeMin * unitLot else cfg.cfgUnitVolume
  let unitMargin : ℚ := minAskMargin * unitLot
  let availMargin : ℚ :=
    max (acct.marginFree - acct.equity * cfg.preservedMarginRatio) 0
  let availVolume : ℚ := (⌊availMargin / minAskMargin⌋ : ℤ) * sym.volumeMin
  ⟨unitVolume, unitLot, unitMargin, availMargin, availVolume⟩

/-- `Mt5TraderCore.is_margin_lack` (its internal cache refreshes re-read the
same snapshots passed here). -/
def isMarginLack (cfg : TraderCfg) (acct : AccountInfo) (sym : SymbolInfo)
    (minAskMargin : ℚ) (positions : List Position) : Bool :=
  let ms := refreshUnitMarginAndVolume cfg acct sym minAskMargin
  positions.isEmpty &&
    (acct.marginFree ≤ ms.unitMargin || ms.unitVolume == 0
      || acct.marginFree ≤ acct.equity * cfg.preservedMarginRatio)

/-- `AutoTrader._has_over_spread`. -/
def hasOverSpread (cfg : TraderCfg) (tick : TickQuote) : Bool :=
  cfg.maxSpreadRatio ≤ (tick.ask - tick.bid) / (tick.ask + tick.bid) * 2

/-- `AutoTrader._has_few_ticks`: the tick window has at most twice the
larger detector span rows. -/
def hasFewTicks (lrrSpan srSpan dfTickLen : ℕ) : Bool :=
  dfTickLen ≤ max lrrSpan srSpan * 2

/-- An SLTP modification request (`TRADE_ACTION_SLTP`) as sent by
`trail_and_update_stop_loss`. -/
structure SltpReq where
  ticket : ℕ
  sl : ℚ
  tp : ℚ
deriving DecidableEq

/-- One loop iteration of `trail_and_update_stop_loss` for a single
position: the position as it stands after the terminal applies the emitted
request (if any), and the request. -/
def trailStep (r : ℚ) (digits : ℕ) (bid ask : ℚ) (p : Position) :
    Position × Option SltpReq :=
  let newSl : ℚ :=
    if p.ptype == PosType.sell then pyRound digits (bid * (1 + r))
    else pyRound digits (ask * (1 - r))
  let trailingSl : ℚ :=
    if p.ptype == PosType.sell then (if newSl < p.sl || p.sl == 0 then newSl else 0)
    else (if p.sl < newSl || p.sl == 0 then newSl else 0)
  if trailingSl != 0 then ({ p with sl := trailingSl }, some ⟨p.ticket, trailingSl, p.tp⟩)
  else (p, none)

/-- `trail_and_update_stop_loss` over the refreshed position list (no
positions → no requests): resulting positions and emitted requests. -/
def trailOnce (r : ℚ) (digits : ℕ) (bid ask : ℚ) (ps : List Position) :
    List Position × List SltpReq :=
  (ps.map fun p => (trailStep r digits bid ask p).1,
   ps.filterMap fun p => (trailStep r digits bid ask p).2)

/-- The `new_sl` computed inside the `trail_and_update_stop_loss` loop
(bid-based for a short position, ask-based for a long one). -/
def trailNewSl (r : ℚ) (d : ℕ) (b a : ℚ) (p : Position) : ℚ :=
  if p.ptype == PosType.sell then pyRound d (b * (1 + r)) else pyRound d (a * (1 - r))

/-- The tightening condition of the `trail_and_update_stop_loss` loop:
`new_sl < p.sl or p.sl == 0` for a short position, `new_sl > p.sl or
p.sl == 0` for a long one. -/
def trailCond (r : ℚ) (d : ℕ) (b a : ℚ) (p : Position) : Bool :=
  if p.ptype == PosType.sell then (trailNewSl r d b a p < p.sl || p.sl == 0)
  else (p.sl < trailNewSl r d b a p || p.sl == 0)

/-- `Mt5TraderCore._determine_order_limits` (the `side` argument is the
pending act; only `'long'`/`'short'` give limits). -/
def determineOrderLimits (cfg : TraderCfg) (tick : TickQuote) (side : Act) :
    Option ℚ × Option ℚ :=
  match side with
  | .long =>
    (some (tick.ask * (1 - cfg.stopLossLimitRatio)),
     some (tick.ask * (1 + cfg.takeProfitLimitRatio)))
  | .short =>
    (some (tick.bid * (1 + cfg.stopLossLimitRatio)),
     some (tick.bid * (1 - cfg.takeProfitLimitRatio)))
  | .closing => (none, none)

/-- One evaluation cycle's snapshots and externally computed verdicts, as
cached by `refresh_mt5_caches` and consumed by `AutoTrader`.  `sigAct` is
the signal detector's verdict on the fetched tick window, `trendSide` the
`detect_trend_side` result (`none` when `day_trend_suppressor` is unset),
and `lowVolume` the `_has_low_volume` verdict on the fetched rate window —
all three are produced from external market data. -/
structure Cycle where
  cfg : TraderCfg
  acct : AccountInfo
  sym : SymbolInfo
  tick : TickQuote
  minAskMargin : ℚ
  minBidMargin : ℚ
  positions : List Position
  historyDeals : List Deal
  lrrSpan : ℕ
  srSpan : ℕ
  dfTickLen : ℕ
  sigAct : Option Act
  trendSide : Option Act
  lowVolume : Bool

/-- The refreshed `self.unit_volume` used for bet sizing. -/
def unitVolumeOf (c : Cycle) : ℚ :=
  (refreshUnitMarginAndVolume c.cfg c.acct c.sym c.minAskMargin).unitVolume

/-- The refreshed `self.avail_volume`. -/
def availVolumeOf (c : Cycle) : ℚ :=
  (refreshUnitMarginAndVolume c.cfg c.acct c.sym c.minAskMargin).availVolume

/-- `Mt5TraderCore._determine_order_volume` (the trader's `BettingSystem`
is built with the default `strict=True`). -/
def determineOrderVolume (c : Cycle) : ℚ :=
  min (calculateVolumeByPl c.cfg.strategy true (unitVolumeOf c) c.historyDeals none)
    (availVolumeOf c)

/-- The externally visible effects of `design_and_place_order`:
closing all positions, a trailing-stop sweep, or a market order of the
given side/volume/limits. -/
inductive TradeAction
  | closeAll
  | trailUpdate
  | place (side : Act) (volume : ℚ) (sl tp : Option ℚ)
deriving DecidableEq

/-- Volumes of the market orders among a list of emitted actions. -/
def placeVolumes (acts : List TradeAction) : List ℚ :=
  acts.filterMap fun a =>
    match a with
    | .place _ v _ _ => some v
    | _ => none

/-- `Mt5TraderCore.design_and_place_order`: the returned new volume and the
emitted actions, in order. -/
def designAndPlaceOrder (c : Cycle) (act : Option Act) : ℚ × List TradeAction :=
  let posSide := positionSideOf c.positions
  let pre : List TradeAction :=
    if posSide.isSome && act.isSome && (act == some Act.closing || act != posSide) then
      [TradeAction.closeAll]
    else if posSide.isSome then [TradeAction.trailUpdate]
    else []
  if act == some Act.long || act == some Act.short then
    let a := act.getD Act.long
    let lims := determineOrderLimits c.cfg c.tick a
    let orderVolume := determineOrderVolume c
    let newVolume :=
      if posSide.isSome && act == posSide then
        orderVolume - (if a == Act.long then longVolume c.positions else shortVolume c.positions)
      else orderVolume
    if 0 < newVolume then (newVolume, pre ++ [TradeAction.place a newVolume lims.1 lims.2])
    else (0, pre)
  else (0, pre)

/-- The decision states of `AutoTrader.determine_sig_state`.  The formatted
position-percentage prefixes of the state strings are presentational and
elided; each constructor stands for one distinct state string. -/
inductive SigState
  | fewTicks (n : ℤ)
  | closingFrom (side : Act)
  | noFund
  | hold (side : Act)
  | lackOfFunds
  | overSpread
  | lowVolume
  | noSig
  | contraryTrend
  | switch (fromSide : Act) (toAct : Act)
  | openNew (toAct : Act)
deriving DecidableEq

/-- Gate 2 of `determine_sig_state`: forced closing on a closing signal or
a disagreeing day-trend filter while holding a position. -/
def gateForcedClosing (c : Cycle) : Bool :=
  (positionSideOf c.positions).isSome &&
    (c.sigAct == some Act.closing || (c.trendSide.isSome && c.sigAct != c.trendSide))

/-- Gate 4 of `determine_sig_state`: hold while the signal agrees with or
is silent relative to the held side. -/
def gateHold (c : Cycle) : Bool :=
  (positionSideOf c.positions).isSome &&
    ((c.sigAct.isSome && c.sigAct == positionSideOf c.positions) || c.sigAct == none)

/-- `AutoTrader.determine_sig_state`: the acted signal and decision state.
The gates appear in the source's evaluation order. -/
def determineSigState (c : Cycle) : Option Act × SigState :=
  let posSide := positionSideOf c.positions
  if hasFewTicks c.lrrSpan c.srSpan c.dfTickLen then
    (none, SigState.fewTicks ((c.dfTickLen : ℤ) - 1))
  else if gateForcedClosing c then
    (some Act.closing, SigState.closingFrom (posSide.getD Act.long))
  else if pyInt c.acct.equity == 0 then (none, SigState.noFund)
  else if gateHold c then (none, SigState.hold (posSide.getD Act.long))
  else if isMarginLack c.cfg c.acct c.sym c.minAskMargin c.positions then
    (none, SigState.lackOfFunds)
  else if hasOverSpread c.cfg c.tick then (none, SigState.overSpread)
  else if c.sigAct != some Act.closing && c.lowVolume then (none, SigState.lowVolume)
  else if c.sigAct == none then (none, SigState.noSig)
  else if c.trendSide.isSome && c.sigAct != c.trendSide then
    (none, SigState.contraryTrend)
  else if posSide.isSome then
    (c.sigAct, SigState.switch (posSide.getD Act.long) (c.sigAct.getD Act.long))
  else (c.sigAct, SigState.openNew (c.sigAct.getD Act.long))

/-! ### Spec-side definitions (for refinement comparisons only) -/

/-- Modelled from the claim wording: `avail_volume` computed from the
account *balance* (the code uses the equity — see the corresponding
counterexample). -/
def specAvailVolumeFromBalance (balance marginFree pmr minAskMargin volumeMin : ℚ) : ℚ :=
  (⌊max (marginFree - balance * pmr) 0 / minAskMargin⌋ : ℤ) * volumeMin

/-- Modelled from the claim wording: the reflection of a pair of order
limits about a mid price. -/
def specMirrorAboutMid (mid : ℚ) (lims : Option ℚ × Option ℚ) : Option ℚ × Option ℚ :=
  (lims.1.map fun x => 2 * mid - x, lims.2.map fun x => 2 * mid - x)

/-! ## Theorems about the claims -/

/-- C1: for a non-empty entry-deal history whose win/loss determination
yields `won_last` = won or lost, and positive `unit_volume` and last
entry-deal volume, `calculate_volume_by_pl` returns exactly the strategy
table's volume: Martingale win → `unit_volume`, loss → `last_volume * 2`;
Paroli win → `last_volume * 2`, loss → `unit_volume`; dAlembert win →
`unit_volume`, loss → `last_volume + unit_volume`; Pyramid win →
`last_volume` if `last_volume < unit_volume` else
`last_volume - unit_volume`, loss → `last_volume + unit_volume`;
Constant → `unit_volume` in both cases. -/
theorem C1_strategy_table (strict : Bool) (deals : List Deal) (unitVolume : ℚ)
    (initVolume : Option ℚ) (w : Bool)
    (hne : entryDealsOf deals ≠ [])
    (hu : 0 < unitVolume) (hl : 0 < lastEntryVolume deals)
    (hw : wonLastOf strict ((entryDealsOf deals).map (·.profit)) = some w) :
    calculateVolumeByPl Strategy.martingale strict unitVolume deals initVolume
      = (if w then unitVolume else lastEntryVolume deals * 2) ∧
    calculateVolumeByPl Strategy.paroli strict unitVolume deals initVolume
      = (if w then lastEntryVolume deals * 2 else unitVolume) ∧
    calculateVolumeByPl Strategy.dalembert strict unitVolume deals initVolume
      = (if w then unitVolume else lastEntryVolume deals + unitVolume) ∧
    calculateVolumeByPl Strategy.pyramid strict unitVolume deals initVolume
      = (if w then
           (if lastEntryVolume deals < unitVolume then lastEntryVolume deals
            else lastEntryVolume deals - unitVolume)
         else lastEntryVolume deals + unitVolume) ∧
    calculateVolumeByPl Strategy.constant strict unitVolume deals initVolume
      = unitVolume := by
  have hempty : (entryDealsOf deals).isEmpty = false := by
    simp [List.isEmpty_iff, hne]
  refine ⟨?_, ?_, ?_, ?_, ?_⟩ <;>
    simp only [calculateVolumeByPl, hempty, hw, calculateVolume,
      Bool.false_eq_true, if_false] <;>
    cases w <;> simp

/-- Witness for C1 at a one-deal history (won, `last_volume = 2`,
`unit_volume = 1`). -/
theorem C1_strategy_table_witness :
    calculateVolumeByPl Strategy.martingale true 1 [⟨true, DealType.buy, 2, 1⟩] none = 1 ∧
    calculateVolumeByPl Strategy.paroli true 1 [⟨true, DealType.buy, 2, 1⟩] none = 4 := by
  have h := C1_strategy_table true [⟨true, DealType.buy, 2, 1⟩] 1 none true
    (by simp [show entryDealsOf [⟨true, DealType.buy, 2, 1⟩]
          = [⟨true, DealType.buy, 2, 1⟩] from rfl])
    (by norm_num)
    (by rw [show lastEntryVolume [⟨true, DealType.buy, 2, 1⟩] = 2 from rfl]; norm_num)
    rfl
  refine ⟨by simpa using h.1, ?_⟩
  have h2 := h.2.1
  rw [show lastEntryVolume [⟨true, DealType.buy, 2, 1⟩] = 2 from rfl] at h2
  simpa using h2.trans (by norm_num)

/-- C3: with strict determination and a last profit strictly positive,
`calculate_volume_by_pl`'s win/loss scan accumulates
(`latest_profit`, `latest_loss`) by the backward walk embodied in
`strictScan`, yields won exactly when `latest_profit > latest_loss` and
undetermined otherwise — never lost — and in particular the profit
sequence `[-5, 3, 2]` (most recent last) yields undetermined. -/
theorem C3_strict_win_determination :
    (∀ (pl : List ℚ) (lastPl : ℚ), pl.getLast? = some lastPl → 0 < lastPl →
      (wonLastOf true pl =
        (if (strictScan pl.dropLast.reverse (lastPl, 0)).2
              < (strictScan pl.dropLast.reverse (lastPl, 0)).1
         then some true else none)) ∧ wonLastOf true pl ≠ some false) ∧
    wonLastOf true [-5, 3, 2] = none := by
  constructor
  · intro pl lastPl h hpos
    have hneg : ¬ lastPl < 0 := not_lt.mpr hpos.le
    constructor
    · simp [wonLastOf, h, hneg, hpos]
    · simp [wonLastOf, h, hneg, hpos]
  · norm_num [wonLastOf, strictScan, pyAbs]

/-- Witness for C3 at the profit sequence `[-5, 3, 2]`: the scan state is
`(latest_profit, latest_loss) = (5, 5)` and the verdict is undetermined. -/
theorem C3_strict_win_determination_witness :
    wonLastOf true [-5, 3, 2]
      = (if (strictScan ([-5, 3, 2] : List ℚ).dropLast.reverse (2, 0)).2
              < (strictScan ([-5, 3, 2] : List ℚ).dropLast.reverse (2, 0)).1
         then some true else none) ∧
    wonLastOf true [-5, 3, 2] ≠ some false ∧
    strictScan ([-5, 3, 2] : List ℚ).dropLast.reverse (2, 0) = (5, 5) := by
  have h := C3_strict_win_determination.1 [-5, 3, 2] 2 rfl (by norm_num)
  exact ⟨h.1, h.2, by norm_num [strictScan, pyAbs]⟩

/-- Counterexample to C4: a single entry deal with profit 0 and volume 5 is
at an all-time high, but its `won_last` is undetermined, so Oscar's grind
returns the generic fallback `last_volume = 5` instead of
`init_volume = 2`. -/
theorem C4_counterexample :
    allTimeHighOf ((entryDealsOf [⟨true, DealType.buy, 5, 0⟩]).map (·.profit)) = true ∧
    wonLastOf true ((entryDealsOf [⟨true, DealType.buy, 5, 0⟩]).map (·.profit)) = none ∧
    calculateVolumeByPl Strategy.oscarsGrind true 1 [⟨true, DealType.buy, 5, 0⟩] (some 2) = 5 ∧
    calculateVolumeByPl Strategy.oscarsGrind true 1 [⟨true, DealType.buy, 5, 0⟩] (some 2)
      ≠ pyOrOpt (some 2) 1 := by
  refine ⟨rfl, rfl, rfl, ?_⟩
  rw [show calculateVolumeByPl Strategy.oscarsGrind true 1
        [⟨true, DealType.buy, 5, 0⟩] (some 2) = 5 from rfl,
      show pyOrOpt (some 2) 1 = 2 from rfl]
  norm_num

/-- C4 amended: when the all-time-high flag is true and `won_last` is won
or lost (not undetermined), Oscar's grind returns `init_volume`
(or `unit_volume` when `init_volume` is unset or zero); when `won_last` is
undetermined the generic fallback `last_volume or init_volume or
unit_volume` is returned before any strategy dispatch. -/
theorem C4_oscars_grind_amended (strict : Bool) (deals : List Deal)
    (unitVolume : ℚ) (initVolume : Option ℚ) (w : Bool)
    (hne : entryDealsOf deals ≠ [])
    (hw : wonLastOf strict ((entryDealsOf deals).map (·.profit)) = some w)
    (hath : allTimeHighOf ((entryDealsOf deals).map (·.profit)) = true) :
    calculateVolumeByPl Strategy.oscarsGrind strict unitVolume deals initVolume
      = pyOrOpt initVolume unitVolume := by
  have hempty : (entryDealsOf deals).isEmpty = false := by
    simp [List.isEmpty_iff, hne]
  simp [calculateVolumeByPl, hempty, hw, hath, calculateVolume]

/-- Witness for the amended C4: a single won entry deal at an all-time
high resets to `init_volume = 2`. -/
theorem C4_oscars_grind_amended_witness :
    calculateVolumeByPl Strategy.oscarsGrind true 1 [⟨true, DealType.buy, 5, 3⟩] (some 2) = 2 := by
  have h := C4_oscars_grind_amended true [⟨true, DealType.buy, 5, 3⟩] 1 (some 2) true
    (by simp [show entryDealsOf [⟨true, DealType.buy, 5, 3⟩]
          = [⟨true, DealType.buy, 5, 3⟩] from rfl])
    rfl rfl
  simpa [pyOrOpt] using h

/-- C2: whenever the insufficient-margin condition and the over-spread
condition are both true in the same cycle and no earlier gate fires (enough
ticks, no forced closing, nonzero truncated equity, no hold on an
agreeing/silent signal), `determine_sig_state` yields action none with
state LACK OF FUNDS — the margin gate is evaluated before the spread
gate. -/
theorem C2_margin_gate_precedes_spread (c : Cycle)
    (h1 : hasFewTicks c.lrrSpan c.srSpan c.dfTickLen = false)
    (h2 : gateForcedClosing c = false)
    (h3 : pyInt c.acct.equity ≠ 0)
    (h4 : gateHold c = false)
    (h5 : isMarginLack c.cfg c.acct c.sym c.minAskMargin c.positions = true)
    (h6 : hasOverSpread c.cfg c.tick = true) :
    determineSigState c = (none, SigState.lackOfFunds) := by
  simp [determineSigState, h1, h2, h4, h5, beq_iff_eq, h3]

/-- Witness for C2: a cycle with no positions, a long signal, free margin
5 below the unit margin 10 (margin lack) and a spread ratio 1 above the
configured 1% (over-spread) halts with LACK OF FUNDS. -/
theorem C2_margin_gate_precedes_spread_witness :
    determineSigState
      ⟨⟨none, 1, 0, 1/100, 1/100, 1/100, 1/100, Strategy.constant⟩,
       ⟨100, 100, 5⟩, ⟨1, 2⟩, ⟨1, 3⟩, 10, 10, [], [], 0, 0, 1,
       some Act.long, none, false⟩
      = (none, SigState.lackOfFunds) := by
  refine C2_margin_gate_precedes_spread _ rfl rfl ?_ rfl ?_ ?_
  · norm_num [pyInt]
  · norm_num [isMarginLack, refreshUnitMarginAndVolume, pyTruthy]
  · norm_num [hasOverSpread]

/-- C5 (code bug): on an empty tick window, `MacdSignalDetector.detect`
raises an `IndexError` from `d['macd'].iloc[-1]` for every current position
side, instead of returning the all-NaN no-signal verdict its own
`df_tick.shape[0] > 0` branch was written to produce. -/
theorem C5_detect_empty_window_raises (sqrtQ : ℚ → ℚ) (tqMacd tqGen : ℚ)
    (cfg : DetectorCfg) (side : Option Act) :
    detect sqrtQ tqMacd tqGen cfg [] side
      = Except.error "single positional indexer is out-of-bounds" := rfl

/-- Counterexample to C7: with balance 0, equity 100, free margin 50,
preserved-margin ratio 1/2 and minimum ask margin 10, the code's
`avail_volume` is 0 (it reserves `equity * ratio`), while the claimed
balance-based formula gives 5. -/
theorem C7_counterexample :
    (refreshUnitMarginAndVolume
        ⟨none, 1, 1/2, 1/100, 1/100, 1/100, 1/100, Strategy.constant⟩
        ⟨0, 100, 50⟩ ⟨1, 2⟩ 10).availVolume = 0 ∧
    specAvailVolumeFromBalance 0 50 (1/2) 10 1 = 5 ∧
    (refreshUnitMarginAndVolume
        ⟨none, 1, 1/2, 1/100, 1/100, 1/100, 1/100, Strategy.constant⟩
        ⟨0, 100, 50⟩ ⟨1, 2⟩ 10).availVolume
      ≠ specAvailVolumeFromBalance 0 50 (1/2) 10 1 := by
  norm_num [refreshUnitMarginAndVolume, specAvailVolumeFromBalance, pyTruthy]

/-- C7 amended: `avail_volume` equals
`floor(max(margin_free - equity * preserved_margin_ratio, 0) /
min_ask_margin)` multiplied by the symbol's minimum volume — the reserve is
taken from the account *equity*, not the balance. -/
theorem C7_avail_volume_amended (cfg : TraderCfg) (acct : AccountInfo)
    (sym : SymbolInfo) (minAskMargin : ℚ) :
    (refreshUnitMarginAndVolume cfg acct sym minAskMargin).availVolume
      = (⌊max (acct.marginFree - acct.equity * cfg.preservedMarginRatio) 0
            / minAskMargin⌋ : ℤ) * sym.volumeMin := rfl

/-- Normal form of one `trail_and_update_stop_loss` iteration: a request is
emitted exactly when the tightening condition holds and the rounded new
stop is nonzero. -/
theorem trailStep_eq (r : ℚ) (d : ℕ) (b a : ℚ) (p : Position) :
    trailStep r d b a p
      = if (trailCond r d b a p && (trailNewSl r d b a p != 0)) = true
        then ({ p with sl := trailNewSl r d b a p },
              some ⟨p.ticket, trailNewSl r d b a p, p.tp⟩)
        else (p, none) := by
  unfold trailStep trailCond trailNewSl
  by_cases hb : (p.ptype == PosType.sell) = true
  · simp only [hb, if_true]
    by_cases hc : (decide (pyRound d (b * (1 + r)) < p.sl) || p.sl == 0) = true
    · simp only [hc, if_true, Bool.true_and]
    · simp only [hc, if_false, Bool.false_and, Bool.false_eq_true]
      simp
  · simp only [hb, if_false, Bool.false_eq_true]
    by_cases hc : (decide (p.sl < pyRound d (a * (1 - r))) || p.sl == 0) = true
    · simp only [hc, if_true, Bool.true_and]
    · simp only [hc, if_false, Bool.false_and, Bool.false_eq_true]
      simp

/-- An emitted SLTP request carries the rounded trailing stop, and the
tightening condition held for it. -/
theorem trailStep_snd_some (r : ℚ) (d : ℕ) (b a : ℚ) (p : Position) (q : SltpReq)
    (h : (trailStep r d b a p).2 = some q) :
    q.sl = trailNewSl r d b a p ∧ trailCond r d b a p = true ∧ q.sl ≠ 0 := by
  rw [trailStep_eq] at h
  by_cases hB : (trailCond r d b a p && (trailNewSl r d b a p != 0)) = true
  · rw [if_pos hB] at h
    simp only [Option.some_inj] at h
    rw [Bool.and_eq_true] at hB
    obtain ⟨hc, hn⟩ := hB
    have hsl : q.sl = trailNewSl r d b a p := by rw [← h]
    exact ⟨hsl, hc, by rw [hsl]; exact bne_iff_ne.mp hn⟩
  · rw [if_neg hB] at h
    simp at h

/-- Re-running one trailing-stop iteration on the position the terminal
updated (or left alone) emits nothing. -/
theorem trailStep_twice_none (r : ℚ) (d : ℕ) (b a : ℚ) (p : Position) :
    (trailStep r d b a (trailStep r d b a p).1).2 = none := by
  rw [trailStep_eq r d b a p]
  by_cases hB : (trailCond r d b a p && (trailNewSl r d b a p != 0)) = true
  · rw [if_pos hB]
    rw [Bool.and_eq_true] at hB
    obtain ⟨hc, hn⟩ := hB
    have hne : (trailNewSl r d b a p == 0) = false :=
      beq_eq_false_iff_ne.mpr (bne_iff_ne.mp hn)
    have hN : trailNewSl r d b a ({ p with sl := trailNewSl r d b a p })
        = trailNewSl r d b a p := by
      simp [trailNewSl]
    have hcond : trailCond r d b a ({ p with sl := trailNewSl r d b a p }) = false := by
      unfold trailCond
      by_cases hb : (({ p with sl := trailNewSl r d b a p } : Position).ptype
          == PosType.sell) = true
      · rw [if_pos hb]
        simp [hN, hne, lt_irrefl]
      · rw [if_neg hb]
        simp [hN, hne, lt_irrefl]
    rw [trailStep_eq, if_neg (by simp [hcond])]
  · rw [if_neg hB]
    rw [trailStep_eq, if_neg hB]

/-- C8: the trailing-stop update only moves a stop to a strictly tighter
value — lower than the existing stop for a short position, higher for a
long one, unless the existing stop is unset (zero) — and running the update
twice with unchanged bid/ask emits no stop modification on the second
run. -/
theorem C8_trailing_stop_tightens_and_idempotent (r : ℚ) (d : ℕ) (b a : ℚ)
    (ps : List Position) :
    (∀ p ∈ ps, ∀ q : SltpReq, (trailStep r d b a p).2 = some q →
      ((p.ptype = PosType.sell → q.sl < p.sl ∨ p.sl = 0) ∧
       (p.ptype = PosType.buy → p.sl < q.sl ∨ p.sl = 0))) ∧
    (trailOnce r d b a (trailOnce r d b a ps).1).2 = [] := by
  constructor
  · intro p _ q hq
    obtain ⟨hsl, hc, _⟩ := trailStep_snd_some r d b a p q hq
    constructor
    · intro hpt
      have hb : (p.ptype == PosType.sell) = true := by rw [hpt]; rfl
      unfold trailCond at hc
      rw [if_pos hb] at hc
      simp only [Bool.or_eq_true, decide_eq_true_eq, beq_iff_eq] at hc
      rw [hsl]
      exact hc
    · intro hpt
      have hb : (p.ptype == PosType.sell) = false := by rw [hpt]; rfl
      unfold trailCond at hc
      rw [if_neg (by simp [hb])] at hc
      simp only [Bool.or_eq_true, decide_eq_true_eq, beq_iff_eq] at hc
      rw [hsl]
      exact hc
  · simp only [trailOnce]
    rw [List.filterMap_map]
    apply List.filterMap_eq_nil_iff.mpr
    intro p _
    exact trailStep_twice_none r d b a p

/-- Witness for C8: a short position with an unset stop (sl = 0) at
bid 100 and a 1% trailing ratio gets stop 101 (tighter-or-unset holds), and
a second sweep at the same prices emits nothing. -/
theorem C8_trailing_stop_witness :
    (trailStep (1/100) 2 100 102 ⟨PosType.sell, 1, 0, 5, 7⟩).2 = some ⟨7, 101, 5⟩ ∧
    ((101 : ℚ) < 0 ∨ (0 : ℚ) = 0) ∧
    (trailOnce (1/100) 2 100 102
      (trailOnce (1/100) 2 100 102 [⟨PosType.sell, 1, 0, 5, 7⟩]).1).2 = [] := by
  have h := C8_trailing_stop_tightens_and_idempotent (1/100) 2 100 102
    [⟨PosType.sell, 1, 0, 5, 7⟩]
  have hstep : (trailStep (1/100) 2 100 102 ⟨PosType.sell, 1, 0, 5, 7⟩).2
      = some ⟨7, 101, 5⟩ := by
    norm_num [trailStep, pyRound, roundHalfEven, beq_self_eq_true]
  refine ⟨hstep, ?_, h.2⟩
  have hti := (h.1 ⟨PosType.sell, 1, 0, 5, 7⟩ (by simp) ⟨7, 101, 5⟩ hstep).1 rfl
  simpa using hti

/-- C6: acting on a long or short signal, the requested volume is
`min(BettingSystem volume, avail_volume)`, minus the already-held volume of
that side when the held dominant side equals the signal side; when the
incremental volume is nonpositive nothing is submitted and 0 is returned,
otherwise exactly that incremental volume is submitted and returned. -/
theorem C6_incremental_order_volume (c : Cycle) (a : Act)
    (ha : a = Act.long ∨ a = Act.short) (nv : ℚ)
    (hnv : nv = (if positionSideOf c.positions = some a
        then min (calculateVolumeByPl c.cfg.strategy true (unitVolumeOf c) c.historyDeals none)
               (availVolumeOf c)
             - (if a = Act.long then longVolume c.positions else shortVolume c.positions)
        else min (calculateVolumeByPl c.cfg.strategy true (unitVolumeOf c) c.historyDeals none)
               (availVolumeOf c))) :
    (designAndPlaceOrder c (some a)).1 = (if 0 < nv then nv else 0) ∧
    placeVolumes (designAndPlaceOrder c (some a)).2 = (if 0 < nv then [nv] else []) := by
  subst hnv
  rcases ha with rfl | rfl <;>
    rcases hps : positionSideOf c.positions with _ | b <;>
    [skip; (cases b); skip; (cases b)] <;>
    simp only [designAndPlaceOrder, determineOrderVolume, hps] <;>
    simp [placeVolumes] <;>
    split <;> simp_all

/-- Witness for C6: with no position, an empty deal history (bet volume =
unit volume 1) and available volume 100, a long signal submits and returns
exactly 1. -/
theorem C6_incremental_order_volume_witness :
    (designAndPlaceOrder
      ⟨⟨none, 1, 0, 1/100, 1/100, 1/100, 1/100, Strategy.constant⟩,
       ⟨100, 100, 100⟩, ⟨1, 2⟩, ⟨99, 101⟩, 1, 1, [], [], 0, 0, 1,
       some Act.long, none, false⟩ (some Act.long)).1 = 1 ∧
    placeVolumes (designAndPlaceOrder
      ⟨⟨none, 1, 0, 1/100, 1/100, 1/100, 1/100, Strategy.constant⟩,
       ⟨100, 100, 100⟩, ⟨1, 2⟩, ⟨99, 101⟩, 1, 1, [], [], 0, 0, 1,
       some Act.long, none, false⟩ (some Act.long)).2 = [1] := by
  have h := C6_incremental_order_volume
    ⟨⟨none, 1, 0, 1/100, 1/100, 1/100, 1/100, Strategy.constant⟩,
     ⟨100, 100, 100⟩, ⟨1, 2⟩, ⟨99, 101⟩, 1, 1, [], [], 0, 0, 1,
     some Act.long, none, false⟩ Act.long (Or.inl rfl) 1 ?_
  · rw [h.1, h.2]
    norm_num
  · rw [show positionSideOf ([] : List Position) = none from rfl]
    norm_num [calculateVolumeByPl, entryDealsOf, lastEntryVolume, pyOr, pyOrOpt,
      unitVolumeOf, availVolumeOf, refreshUnitMarginAndVolume, pyTruthy, min_def]
    simp

/-- Counterexample to C9: at the symmetric tick bid 99 / ask 101 with both
ratios 1/100, reflecting the long-side limits about the mid price 100 does
not give the short-side limits (the long side prices off the ask, the short
side off the bid). -/
theorem C9_counterexample :
    determineOrderLimits ⟨none, 1, 0, 1/100, 1/100, 1/100, 1/100, Strategy.constant⟩
        ⟨99, 101⟩ Act.long = (some (9999/100), some (10201/100)) ∧
    determineOrderLimits ⟨none, 1, 0, 1/100, 1/100, 1/100, 1/100, Strategy.constant⟩
        ⟨99, 101⟩ Act.short = (some (9999/100), some (9801/100)) ∧
    specMirrorAboutMid ((99 + 101) / 2)
        (determineOrderLimits ⟨none, 1, 0, 1/100, 1/100, 1/100, 1/100, Strategy.constant⟩
          ⟨99, 101⟩ Act.long)
      ≠ determineOrderLimits ⟨none, 1, 0, 1/100, 1/100, 1/100, 1/100, Strategy.constant⟩
          ⟨99, 101⟩ Act.short := by
  norm_num [determineOrderLimits, specMirrorAboutMid, Prod.ext_iff]

/-- C9 amended: for the same tick, the short-side limits equal the
long-side limit formulas applied at the bid price with the stop-loss and
take-profit ratios flipped in sign (they are not reflections of the long
limits about the mid price). -/
theorem C9_sign_flip_amended (cfg : TraderCfg) (t : TickQuote) :
    determineOrderLimits cfg t Act.short
      = determineOrderLimits
          { cfg with stopLossLimitRatio := -cfg.stopLossLimitRatio,
                     takeProfitLimitRatio := -cfg.takeProfitLimitRatio }
          { t with ask := t.bid } Act.long := by
  simp only [determineOrderLimits, Prod.mk.injEq, Option.some_inj]
  constructor <;> ring_nf

/-- C10: `is_margin_lack` is false whenever any position is open for the
symbol, regardless of free margin, unit volume or the preserved-margin
floor — the lack-of-funds halt can only occur with no open position. -/
theorem C10_margin_lack_requires_no_positions (cfg : TraderCfg)
    (acct : AccountInfo) (sym : SymbolInfo) (minAskMargin : ℚ)
    (positions : List Position) (h : positions ≠ []) :
    isMarginLack cfg acct sym minAskMargin positions = false := by
  cases positions with
  | nil => exact absurd rfl h
  | cons p rest => simp [isMarginLack]

/-- Witness for C10: one open position with zero free margin and zero
equity still reports no margin lack. -/
theorem C10_margin_lack_witness :
    isMarginLack ⟨none, 1, 0, 0, 0, 0, 0, Strategy.constant⟩ ⟨0, 0, 0⟩ ⟨1, 0⟩ 1
      [⟨PosType.buy, 1, 0, 0, 0⟩] = false :=
  C10_margin_lack_requires_no_positions _ _ _ _ _ (by simp)

end Mteor
